import Mathlib

/-!
Verification of the corduroy terrain-derivative library.

The accessor layer is embedded from `src/corduroy/accessors.py`.
The terrain engine itself (`corduroy/DEM.py` together with the mode types of
`corduroy/types.py`) is not part of the snapshot, so the gradient kernel,
derivative formulas, spacing resolver, vertical-scale resolver and the
block/halo coordinator are modelled from the specification (see the
individual doc comments).

Elevation samples are rational numbers; a missing sample (floating NaN in
the original) is `none`.  The transcendental derivative formulas live in `ℝ`.
-/

namespace Corduroy

/-- Modelled from the spec: a Grid is an immutable two-dimensional array of
elevation samples indexed by a row axis and a column axis.  NaN is `none`. -/
structure Grid where
  h : ℕ
  w : ℕ
  data : ℕ → ℕ → Option ℚ

/-- Modelled from the spec: edge-clamped padding — boundary cells replicate
the nearest value, so every index is pulled back into `[0, n-1]`. -/
def clampIdx (n : ℕ) (i : ℤ) : ℕ := (min (max i 0) ((n : ℤ) - 1)).toNat

/-- The elevation sample at offset `(dr, dc)` from cell `(r, c)`, with
edge-clamped padding. -/
def cellOff (g : Grid) (r c : ℕ) (dr dc : ℤ) : Option ℚ :=
  g.data (clampIdx g.h ((r : ℤ) + dr)) (clampIdx g.w ((c : ℤ) + dc))

/-- A full 3×3 neighborhood of elevation samples (top/middle/bottom row,
left/middle/right column). -/
structure Nbhd where
  tl : ℚ
  tm : ℚ
  tr : ℚ
  ml : ℚ
  mm : ℚ
  mr : ℚ
  bl : ℚ
  bm : ℚ
  br : ℚ

/-- Modelled from the spec: gather the 3×3 neighborhood of a cell; if any of
the 9 samples (the center included) is missing the whole neighborhood is
missing (strict NaN containment, §4.3). -/
def get9 (g : Grid) (r c : ℕ) : Option Nbhd := do
  let tl ← cellOff g r c (-1) (-1)
  let tm ← cellOff g r c (-1) 0
  let tr ← cellOff g r c (-1) 1
  let ml ← cellOff g r c 0 (-1)
  let mm ← cellOff g r c 0 0
  let mr ← cellOff g r c 0 1
  let bl ← cellOff g r c 1 (-1)
  let bm ← cellOff g r c 1 0
  let br ← cellOff g r c 1 1
  pure ⟨tl, tm, tr, ml, mm, mr, bl, bm, br⟩

/-- Horn stencil, x direction: weighted right column minus weighted left
column. -/
def hornX (n : Nbhd) : ℚ := (n.tr + 2 * n.mr + n.br) - (n.tl + 2 * n.ml + n.bl)

/-- Horn stencil, y direction: weighted bottom row minus weighted top row
(row index grows with the y coordinate). -/
def hornY (n : Nbhd) : ℚ := (n.bl + 2 * n.bm + n.br) - (n.tl + 2 * n.tm + n.tr)

/-- Modelled from the spec: the gradient kernel (§4.3) — Horn differences
divided by `8·dx` and `8·dy`, with strict NaN containment via `get9`. -/
def gradAt (g : Grid) (dx dy : ℚ) (r c : ℕ) : Option (ℚ × ℚ) :=
  (get9 g r c).map (fun n => (hornX n / (8 * dx), hornY n / (8 * dy)))

/-- The 3×3 neighborhood of `(r, c)` touches a missing sample. -/
def nbhdHasNone (g : Grid) (r c : ℕ) : Prop :=
  ∃ dr dc : ℤ, dr.natAbs ≤ 1 ∧ dc.natAbs ≤ 1 ∧ cellOff g r c dr dc = none

noncomputable section

open Real

/-- Modelled from the spec: slope in degrees, `atan(sqrt(gx² + gy²))`, with
each partial multiplied by the per-row vertical scale `z` (§4.2–4.4). -/
def slopeVal (z : ℝ) (gx gy : ℚ) : ℝ :=
  Real.arctan (Real.sqrt ((z * gx) ^ 2 + (z * gy) ^ 2)) * 180 / Real.pi

/-- Two-argument arctangent (the standard `atan2(y, x)` case split). -/
def atan2R (y x : ℝ) : ℝ :=
  if 0 < x then Real.arctan (y / x)
  else if x < 0 then
    (if 0 ≤ y then Real.arctan (y / x) + Real.pi
     else Real.arctan (y / x) - Real.pi)
  else
    (if 0 < y then Real.pi / 2 else if y < 0 then -(Real.pi / 2) else 0)

/-- Modelled from the spec: aspect as a compass bearing in `[0, 360)` of the
direction of steepest descent — `atan2` of the downslope vector
`(-gx, -gy)` (east component first), converted to degrees, with the
flat-cell convention `aspect = 0` (§4.4). -/
def aspectVal (z : ℝ) (gx gy : ℚ) : ℝ :=
  let a := atan2R (-(z * gx)) (-(z * gy)) * 180 / Real.pi
  if a < 0 then a + 360 else a

/-- Modelled from the spec: Lambertian hillshade — cosine of the angle
between the surface normal `(-gx, -gy, 1)/‖·‖` and the illumination vector
built from azimuth/altitude, clamped to `[0, 1]` (§4.4). -/
def hillshadeVal (z : ℝ) (azimuth altitude : ℚ) (gx gy : ℚ) : ℝ :=
  let azr := (azimuth : ℝ) * Real.pi / 180
  let altr := (altitude : ℝ) * Real.pi / 180
  let raw := (Real.sin altr -
      Real.cos altr * (Real.sin azr * (z * gx) + Real.cos azr * (z * gy))) /
    Real.sqrt (1 + (z * gx) ^ 2 + (z * gy) ^ 2)
  max 0 (min 1 raw)

/-- Per-cell slope over a grid, given spacings and a per-row vertical scale. -/
def slopeAt (g : Grid) (dx dy : ℚ) (z : ℕ → ℝ) (r c : ℕ) : Option ℝ :=
  (gradAt g dx dy r c).map (fun p => slopeVal (z r) p.1 p.2)

/-- Per-cell aspect over a grid. -/
def aspectAt (g : Grid) (dx dy : ℚ) (z : ℕ → ℝ) (r c : ℕ) : Option ℝ :=
  (gradAt g dx dy r c).map (fun p => aspectVal (z r) p.1 p.2)

/-- Per-cell hillshade over a grid. -/
def hillshadeAt (g : Grid) (dx dy : ℚ) (z : ℕ → ℝ) (azimuth altitude : ℚ)
    (r c : ℕ) : Option ℝ :=
  (gradAt g dx dy r c).map (fun p => hillshadeVal (z r) azimuth altitude p.1 p.2)

/-- Modelled from the spec: the closed TerrainMode variant (`types.py` is not
in the snapshot). -/
inductive TerrainMode where
  | slope : TerrainMode
  | aspect : TerrainMode
  | hillshade (azimuth altitude : ℚ) : TerrainMode

/-- Per-cell terrain derivative, dispatching on the mode. -/
def terrainAt (g : Grid) (dx dy : ℚ) (z : ℕ → ℝ) (mode : TerrainMode)
    (r c : ℕ) : Option ℝ :=
  match mode with
  | .slope => slopeAt g dx dy z r c
  | .aspect => aspectAt g dx dy z r c
  | .hillshade az alt => hillshadeAt g dx dy z az alt r c

end

/-- Modelled from the spec: effective spacing of one adjacent coordinate
pair — the raw absolute difference, except that on a geographic column axis
a raw difference above 180° is a wraparound with spacing `360 − |raw|`
(antimeridian rule, §4.1). -/
def effSpacing (isGeo : Bool) (a b : ℚ) : ℚ :=
  let d := |b - a|
  if isGeo ∧ 180 < d then 360 - d else d

/-- Effective spacings of all adjacent coordinate pairs. -/
def pairSpacings (isGeo : Bool) (coords : List ℚ) : List ℚ :=
  List.zipWith (effSpacing isGeo) coords coords.tail

/-- Modelled from the spec: the spacing resolver derives one constant width
per axis from the first coordinate interval (§4.1). -/
def resolveD (isGeo : Bool) (coords : List ℚ) : ℚ :=
  (pairSpacings isGeo coords).headD 1

/-- Modelled from the spec: the resolution spec — an explicit scalar means
`dx = dy = resolution`, `none` means derive from the coordinate vectors
(antimeridian handling only on the column axis). -/
def resolveRes (isGeo : Bool) (res : Option ℚ) (xs ys : List ℚ) : ℚ × ℚ :=
  match res with
  | some s => (s, s)
  | none => (resolveD isGeo xs, resolveD false ys)

noncomputable section

/-- Modelled from the spec: the vertical scale resolver (§4.2) — an explicit
override wins for every row; a projected CRS uses `1`; a geographic CRS uses
the secant of the row latitude, so rows nearer the poles get a larger
vertical-to-horizontal ratio. -/
def zFactor (isGeo : Bool) (override : Option ℚ) (lats : List ℚ) (r : ℕ) : ℝ :=
  match override with
  | some v => (v : ℝ)
  | none =>
    if isGeo then 1 / Real.cos (((lats.getD r 0 : ℚ) : ℝ) * Real.pi / 180)
    else 1

/-- Modelled from the spec: the slope pipeline of the terrain engine —
spacing resolver, vertical scale resolver, gradient kernel, slope formula. -/
def demSlope (isGeo : Bool) (res : Option ℚ) (zOv : Option ℚ)
    (xs ys : List ℚ) (g : Grid) (r c : ℕ) : Option ℝ :=
  let d := resolveRes isGeo res xs ys
  slopeAt g d.1 d.2 (zFactor isGeo zOv ys) r c

/-- Modelled from the spec: the aspect pipeline of the terrain engine. -/
def demAspect (isGeo : Bool) (res : Option ℚ) (zOv : Option ℚ)
    (xs ys : List ℚ) (g : Grid) (r c : ℕ) : Option ℝ :=
  let d := resolveRes isGeo res xs ys
  aspectAt g d.1 d.2 (zFactor isGeo zOv ys) r c

/-- Sum of the defined (non-missing) values of a per-cell field. -/
def nansum (g : Grid) (f : ℕ → ℕ → Option ℝ) : ℝ :=
  ∑ r ∈ Finset.range g.h, ∑ c ∈ Finset.range g.w, (f r c).getD 0

/-- Number of defined (non-missing) values of a per-cell field, as a real. -/
def obsCount (g : Grid) (f : ℕ → ℕ → Option ℝ) : ℝ :=
  ∑ r ∈ Finset.range g.h, ∑ c ∈ Finset.range g.w,
    (if (f r c).isSome then (1 : ℝ) else 0)

/-- Mean of the defined values of a per-cell field (the `nanmean`). -/
def nanmean (g : Grid) (f : ℕ → ℕ → Option ℝ) : ℝ :=
  nansum g f / obsCount g f

/-- Mean slope magnitude of a geographic grid whose rows sit at the given
latitudes. -/
def meanSlopeAtLats (g : Grid) (dx dy : ℚ) (lats : List ℚ) : ℝ :=
  nanmean g (slopeAt g dx dy (zFactor true none lats))

end

/-- Uniform translation of the whole elevation field by a constant. -/
def gridAdd (g : Grid) (k : ℚ) : Grid :=
  ⟨g.h, g.w, fun i j => (g.data i j).map (· + k)⟩

/-- Start index of the 1-d chunk segment containing global index `r`. -/
def segStart : List ℕ → ℕ → ℕ
  | [], _ => 0
  | s :: rest, r => if r < s then 0 else s + segStart rest (r - s)

/-- Length of the 1-d chunk segment containing global index `r`. -/
def segLen : List ℕ → ℕ → ℕ
  | [], _ => 0
  | s :: rest, r => if r < s then s else segLen rest (r - s)

/-- Modelled from the spec: the halo-extended block (§4.5) — the block
`[rs, rs+rl) × [cs, cs+cl)` of `g` grown by one row/column of real
neighboring data on every side that has one (truncated at the whole-grid
edge). -/
def subExt (g : Grid) (rs rl cs cl : ℕ) : Grid :=
  ⟨min (rs + rl + 1) g.h - (rs - 1), min (cs + cl + 1) g.w - (cs - 1),
   fun i j => g.data ((rs - 1) + i) ((cs - 1) + j)⟩

/-- Modelled from the spec: the block/halo coordinator (§4.5) — partition
the grid by row-chunk sizes and column-chunk sizes, extend the block owning
`(r, c)` by a one-cell halo, run the kernel over the extended block with the
per-row vertical scale shifted to global rows, and read the cell back at its
local position (the trim). -/
noncomputable def chunkedSlopeAt (g : Grid) (rowSplits colSplits : List ℕ)
    (dx dy : ℚ) (z : ℕ → ℝ) (r c : ℕ) : Option ℝ :=
  let rs := segStart rowSplits r
  let rl := segLen rowSplits r
  let cs := segStart colSplits c
  let cl := segLen colSplits c
  slopeAt (subExt g rs rl cs cl) dx dy (fun i => z ((rs - 1) + i))
    (r - (rs - 1)) (c - (cs - 1))

/-! ## The accessor layer, embedded from `src/corduroy/accessors.py` -/

/-- An xarray dimension or variable name: a string, or some other hashable
(non-string) key. -/
inductive Name where
  | str (s : String) : Name
  | other (n : ℕ) : Name
deriving DecidableEq

/-- Python `str.lower`, character by character. -/
def lowerStr (s : String) : String := String.mk (s.data.map Char.toLower)

/-- `_is_match`: a name matches a string list iff it is a string and its
lowercase form is in the list. -/
def is_match (name : Name) (options : List String) : Bool :=
  match name with
  | .str s => lowerStr s ∈ options
  | .other _ => false

/-- The column-axis candidate names of `_discover_dims`. -/
def xOptions : List String := ["x", "lon", "longitude", "long"]

/-- The row-axis candidate names of `_discover_dims`. -/
def yOptions : List String := ["y", "lat", "latitude"]

/-- `str(d)` on a dimension name. -/
def nameStr : Name → String
  | .str s => s
  | .other n => toString n

/-- Python `x or fallback` on an optional string: `None` and the empty
string are falsy and fall through to the fallback. -/
def pyOr (x : Option String) (fallback : String) : String :=
  match x with
  | some s => if s = "" then fallback else s
  | none => fallback

/-- `DEMDataArrayAccessor._discover_dims`: the explicit parameters are
combined with `or` against the first dimension matching the candidate
lists, with defaults `"x"` and `"y"`. -/
def discover_dims (dims : List Name) (x y : Option String) : String × String :=
  (pyOr x (((dims.find? (fun d => is_match d xOptions)).map nameStr).getD "x"),
   pyOr y (((dims.find? (fun d => is_match d yOptions)).map nameStr).getD "y"))

/-- A CRS descriptor: opaque identifier plus the geographic flag. -/
structure CRSDesc where
  id : String
  isGeographic : Bool

/-- The labeled data array the accessor wraps: dimension names, the CRS
lookup result, coordinate vectors and the elevation grid. -/
structure DataArr where
  dims : List Name
  projCrs : Option CRSDesc
  xcoords : List ℚ
  ycoords : List ℚ
  grid : Grid

/-- The error message raised by `DEMDataArrayAccessor.crs`. -/
def noCrsMsg : String :=
  "Corduroy Error: No CRS found on DataArray. Terrain operations require a CRS for accurate scaling."

/-- `DEMDataArrayAccessor.crs`: surface the CRS lookup result, raising when
the lookup returned none. -/
def daCrs (da : DataArr) : Except String CRSDesc :=
  match da.projCrs with
  | none => .error noCrsMsg
  | some c => .ok c

noncomputable section

/-- `DEMDataArrayAccessor.slope`: discover dims, look up the CRS (raising if
absent), then run the terrain engine; returns the dim names passed to the
engine together with the output field. -/
def da_slope (da : DataArr) (x y : Option String) (res : Option ℚ)
    (zOv : Option ℚ) : Except String (String × String × (ℕ → ℕ → Option ℝ)) :=
  let dims := discover_dims da.dims x y
  (daCrs da).map (fun crs =>
    (dims.1, dims.2,
     fun r c =>
       let d := resolveRes crs.isGeographic res da.xcoords da.ycoords
       terrainAt da.grid d.1 d.2 (zFactor crs.isGeographic zOv da.ycoords)
         .slope r c))

/-- `DEMDataArrayAccessor.aspect`. -/
def da_aspect (da : DataArr) (x y : Option String) (res : Option ℚ)
    (zOv : Option ℚ) : Except String (String × String × (ℕ → ℕ → Option ℝ)) :=
  let dims := discover_dims da.dims x y
  (daCrs da).map (fun crs =>
    (dims.1, dims.2,
     fun r c =>
       let d := resolveRes crs.isGeographic res da.xcoords da.ycoords
       terrainAt da.grid d.1 d.2 (zFactor crs.isGeographic zOv da.ycoords)
         .aspect r c))

/-- `DEMDataArrayAccessor.hillshade`: the sun position parameters default to
azimuth 315.0 and altitude 45.0 when not supplied. -/
def da_hillshade (da : DataArr) (x y : Option String) (res : Option ℚ)
    (zOv : Option ℚ) (azimuth altitude : Option ℚ) :
    Except String (String × String × (ℕ → ℕ → Option ℝ)) :=
  let az := azimuth.getD 315
  let alt := altitude.getD 45
  let dims := discover_dims da.dims x y
  (daCrs da).map (fun crs =>
    (dims.1, dims.2,
     fun r c =>
       let d := resolveRes crs.isGeographic res da.xcoords da.ycoords
       terrainAt da.grid d.1 d.2 (zFactor crs.isGeographic zOv da.ycoords)
         (.hillshade az alt) r c))

end

/-- A multi-variable dataset: named data variables. -/
structure Dataset where
  vars : List (Name × DataArr)

/-- Errors of the dataset-level variable discovery. -/
inductive DiscErr where
  | multipleVars : DiscErr
  | noVar : DiscErr
  | keyError : DiscErr
deriving DecidableEq

/-- The candidate elevation variable names of `DEMDatasetAccessor.__call__`. -/
def commonNames : List String := ["elevation", "dem", "height", "z"]

/-- Python truthiness of the optional `name` argument. -/
def nameTruthy : Option Name → Bool
  | none => false
  | some (.str s) => !(s == "")
  | some (.other n) => !(n == 0)

/-- `DEMDatasetAccessor.__call__`: explicit name wins when truthy; otherwise
select by exact (case-insensitive) name match against the candidate list;
if none matches, fall back to the unique variable with at least two
dimensions; more than one survivor at either stage, or none at all, is an
error. -/
def dsCall (ds : Dataset) (name : Option Name) : Except DiscErr DataArr :=
  if nameTruthy name then
    match ds.vars.find? (fun p => some p.1 == name) with
    | some p => .ok p.2
    | none => .error .keyError
  else
    match ds.vars.filter (fun p => is_match p.1 commonNames) with
    | [p] => .ok p.2
    | _ :: _ :: _ => .error .multipleVars
    | [] =>
      match ds.vars.filter (fun p => 2 ≤ p.2.dims.length) with
      | [p] => .ok p.2
      | _ :: _ :: _ => .error .multipleVars
      | [] => .error .noVar

/-- `DEMDatasetAccessor.hillshade`: delegate to the discovered variable's
data-array accessor, forwarding all keyword arguments. -/
noncomputable def ds_hillshade (ds : Dataset) (x y : Option String)
    (res : Option ℚ) (zOv : Option ℚ) (azimuth altitude : Option ℚ) :
    Except DiscErr (Except String (String × String × (ℕ → ℕ → Option ℝ))) :=
  (dsCall ds none).map (fun da => da_hillshade da x y res zOv azimuth altitude)

/-! ## Concrete fixtures from the test suite -/

/-- The 5×5 pyramid elevation field of `tests/conftest.py`. -/
def pyramidRows : List (List ℚ) :=
  [[0, 0, 0, 0, 0],
   [0, 1, 1, 1, 0],
   [0, 1, 2, 1, 0],
   [0, 1, 1, 1, 0],
   [0, 0, 0, 0, 0]]

/-- The pyramid DEM as a grid. -/
def pyramidGrid : Grid :=
  ⟨5, 5, fun r c => some ((pyramidRows.getD r []).getD c 0)⟩

/-- The integer coordinate vector `[0, 1, 2, 3, 4]`. -/
def coords04 : List ℚ := [0, 1, 2, 3, 4]

/-- The antimeridian-crossing column coordinates of `test_dateline_jump`. -/
def datelineXs : List ℚ := [178, 179, 180, -179, -178]

/-- The `test_dateline_jump` elevation field: `x + y` with a step feature of
height 10 along column index 2. -/
def datelineGrid : Grid :=
  ⟨5, 5, fun r c => some (if c = 2 then 10 else (r : ℚ) + c)⟩

/-- Uniform translation of a full 3×3 neighborhood. -/
def nbhdAdd (n : Nbhd) (k : ℚ) : Nbhd :=
  ⟨n.tl + k, n.tm + k, n.tr + k, n.ml + k, n.mm + k, n.mr + k,
   n.bl + k, n.bm + k, n.br + k⟩

/-- The empty grid. -/
def emptyGrid : Grid := ⟨0, 0, fun _ _ => none⟩

/-- A 2×2 grid with a missing sample in its upper-left corner. -/
def gNaN : Grid :=
  ⟨2, 2, fun i j => if i = 0 ∧ j = 0 then none else some 1⟩

/-- A data array on which the CRS lookup returns none. -/
def daNoCrs : DataArr := ⟨[.str "x", .str "y"], none, [], [], emptyGrid⟩

/-- A data variable with two spatial dimensions (no CRS needed for the
discovery fixtures). -/
def varXY : DataArr := ⟨[.str "x", .str "y"], none, [], [], emptyGrid⟩

/-- A dataset holding a distractor variable and an `elevation` variable. -/
def dsSample : Dataset :=
  ⟨[(.str "temp1", varXY), (.str "elevation", varXY)]⟩

/-- A 3×3 grid with a gentle column ramp, used as a chunking fixture. -/
def rampGrid : Grid :=
  ⟨3, 3, fun r c => some ((r : ℚ) + 2 * c)⟩

/-! ## Lemmas about the gradient kernel -/

theorem get9_isSome_iff (g : Grid) (r c : ℕ) :
    (get9 g r c).isSome ↔
      ((cellOff g r c (-1) (-1)).isSome ∧ (cellOff g r c (-1) 0).isSome ∧
       (cellOff g r c (-1) 1).isSome ∧ (cellOff g r c 0 (-1)).isSome ∧
       (cellOff g r c 0 0).isSome ∧ (cellOff g r c 0 1).isSome ∧
       (cellOff g r c 1 (-1)).isSome ∧ (cellOff g r c 1 0).isSome ∧
       (cellOff g r c 1 1).isSome) := by
  unfold get9
  cases h1 : cellOff g r c (-1) (-1) with
  | none => simp
  | some v1 =>
    cases h2 : cellOff g r c (-1) 0 with
    | none => simp
    | some v2 =>
      cases h3 : cellOff g r c (-1) 1 with
      | none => simp
      | some v3 =>
        cases h4 : cellOff g r c 0 (-1) with
        | none => simp
        | some v4 =>
          cases h5 : cellOff g r c 0 0 with
          | none => simp
          | some v5 =>
            cases h6 : cellOff g r c 0 1 with
            | none => simp
            | some v6 =>
              cases h7 : cellOff g r c 1 (-1) with
              | none => simp
              | some v7 =>
                cases h8 : cellOff g r c 1 0 with
                | none => simp
                | some v8 =>
                  cases h9 : cellOff g r c 1 1 with
                  | none => simp
                  | some v9 => simp

theorem get9_eq_none_of_hasNone {g : Grid} {r c : ℕ} (h : nbhdHasNone g r c) :
    get9 g r c = none := by
  obtain ⟨dr, dc, hdr, hdc, hn⟩ := h
  rcases h9 : get9 g r c with _ | n
  · rfl
  exfalso
  have hs : (get9 g r c).isSome := by rw [h9]; rfl
  obtain ⟨s1, s2, s3, s4, s5, s6, s7, s8, s9⟩ := (get9_isSome_iff g r c).mp hs
  have hdr3 : dr = -1 ∨ dr = 0 ∨ dr = 1 := by omega
  have hdc3 : dc = -1 ∨ dc = 0 ∨ dc = 1 := by omega
  rcases hdr3 with rfl | rfl | rfl <;> rcases hdc3 with rfl | rfl | rfl <;>
    simp_all

theorem cellOff_gridAdd (g : Grid) (k : ℚ) (r c : ℕ) (dr dc : ℤ) :
    cellOff (gridAdd g k) r c dr dc = (cellOff g r c dr dc).map (· + k) := rfl

theorem get9_gridAdd (g : Grid) (k : ℚ) (r c : ℕ) :
    get9 (gridAdd g k) r c = (get9 g r c).map (fun n => nbhdAdd n k) := by
  unfold get9
  simp only [cellOff_gridAdd]
  cases h1 : cellOff g r c (-1) (-1) with
  | none => simp
  | some v1 =>
    cases h2 : cellOff g r c (-1) 0 with
    | none => simp
    | some v2 =>
      cases h3 : cellOff g r c (-1) 1 with
      | none => simp
      | some v3 =>
        cases h4 : cellOff g r c 0 (-1) with
        | none => simp
        | some v4 =>
          cases h5 : cellOff g r c 0 0 with
          | none => simp
          | some v5 =>
            cases h6 : cellOff g r c 0 1 with
            | none => simp
            | some v6 =>
              cases h7 : cellOff g r c 1 (-1) with
              | none => simp
              | some v7 =>
                cases h8 : cellOff g r c 1 0 with
                | none => simp
                | some v8 =>
                  cases h9 : cellOff g r c 1 1 with
                  | none => simp
                  | some v9 => simp [nbhdAdd]

theorem gradAt_gridAdd (g : Grid) (k : ℚ) (dx dy : ℚ) (r c : ℕ) :
    gradAt (gridAdd g k) dx dy r c = gradAt g dx dy r c := by
  unfold gradAt
  rw [get9_gridAdd]
  rcases get9 g r c with _ | n
  · rfl
  · simp only [Option.map_some', Option.some.injEq, nbhdAdd, hornX, hornY,
      Prod.mk.injEq]
    constructor <;> ring

theorem atan2R_zero_neg (x : ℝ) (hx : x < 0) : atan2R 0 x = Real.pi := by
  unfold atan2R
  rw [if_neg (by linarith), if_pos hx, if_pos le_rfl, zero_div,
    Real.arctan_zero, zero_add]

theorem atan2R_zero_pos (x : ℝ) (hx : 0 < x) : atan2R 0 x = 0 := by
  unfold atan2R
  rw [if_pos hx, zero_div, Real.arctan_zero]

theorem aspectVal_south (z : ℝ) (gy : ℚ) (hz : 0 < z) (hgy : 0 < gy) :
    aspectVal z 0 gy = 180 := by
  have hgyR : (0 : ℝ) < (gy : ℝ) := by exact_mod_cast hgy
  have hx : -(z * (gy : ℝ)) < 0 := by nlinarith
  have hpi := Real.pi_ne_zero
  simp only [aspectVal, Rat.cast_zero, mul_zero, neg_zero]
  rw [atan2R_zero_neg _ hx]
  have h180 : Real.pi * 180 / Real.pi = 180 := by
    rw [mul_comm, mul_div_assoc, div_self hpi, mul_one]
  rw [h180, if_neg (by norm_num)]

theorem aspectVal_north (z : ℝ) (gy : ℚ) (hz : 0 < z) (hgy : gy < 0) :
    aspectVal z 0 gy = 0 := by
  have hgyR : (gy : ℝ) < 0 := by exact_mod_cast hgy
  have hx : 0 < -(z * (gy : ℝ)) := by nlinarith
  simp only [aspectVal, Rat.cast_zero, mul_zero, neg_zero]
  rw [atan2R_zero_pos _ hx, zero_mul, zero_div, if_neg (by norm_num)]

theorem slopeVal_pos (z : ℝ) (gx gy : ℚ) (hz : 0 < z) (hgx : gx ≠ 0) :
    0 < slopeVal z gx gy := by
  unfold slopeVal
  have hgxR : ((gx : ℝ)) ≠ 0 := by exact_mod_cast hgx
  have hne : z * (gx : ℝ) ≠ 0 := mul_ne_zero (ne_of_gt hz) hgxR
  have h1 : 0 < (z * (gx : ℝ)) ^ 2 := pow_two_pos_of_ne_zero hne
  have h2 : 0 < (z * (gx : ℝ)) ^ 2 + (z * (gy : ℝ)) ^ 2 :=
    add_pos_of_pos_of_nonneg h1 (sq_nonneg _)
  have h3 : 0 < Real.sqrt ((z * (gx : ℝ)) ^ 2 + (z * (gy : ℝ)) ^ 2) :=
    Real.sqrt_pos.mpr h2
  have h4 : 0 < Real.arctan (Real.sqrt ((z * (gx : ℝ)) ^ 2 + (z * (gy : ℝ)) ^ 2)) := by
    have := Real.arctan_strictMono h3
    rwa [Real.arctan_zero] at this
  exact div_pos (mul_pos h4 (by norm_num)) Real.pi_pos

theorem cos_deg_pos {q : ℝ} (h : |q| < 90) : 0 < Real.cos (q * Real.pi / 180) := by
  have hq := abs_lt.mp h
  have hpi : 0 < Real.pi := Real.pi_pos
  apply Real.cos_pos_of_mem_Ioo
  constructor
  · show -(Real.pi / 2) < q * Real.pi / 180
    nlinarith [mul_pos (by linarith : (0 : ℝ) < q + 90) hpi]
  · show q * Real.pi / 180 < Real.pi / 2
    nlinarith [mul_pos (by linarith : (0 : ℝ) < 90 - q) hpi]

theorem zFactor_geo_pos (lats : List ℚ) (r : ℕ) (h : |lats.getD r 0| < 90) :
    0 < zFactor true none lats r := by
  have hR : |((lats.getD r 0 : ℚ) : ℝ)| < 90 := by
    rw [← Rat.cast_abs]
    exact_mod_cast h
  unfold zFactor
  simp only [if_true]
  exact div_pos one_pos (cos_deg_pos hR)

theorem zFactor_mono (lats1 lats2 : List ℚ) (r : ℕ)
    (h1 : |lats1.getD r 0| ≤ |lats2.getD r 0|) (h2 : |lats2.getD r 0| < 90) :
    0 < zFactor true none lats1 r ∧
      zFactor true none lats1 r ≤ zFactor true none lats2 r := by
  have h1R : |((lats1.getD r 0 : ℚ) : ℝ)| ≤ |((lats2.getD r 0 : ℚ) : ℝ)| := by
    rw [← Rat.cast_abs, ← Rat.cast_abs]
    exact_mod_cast h1
  have h2R : |((lats2.getD r 0 : ℚ) : ℝ)| < 90 := by
    rw [← Rat.cast_abs]
    exact_mod_cast h2
  have h1lt : |((lats1.getD r 0 : ℚ) : ℝ)| < 90 := lt_of_le_of_lt h1R h2R
  set q1 : ℝ := ((lats1.getD r 0 : ℚ) : ℝ)
  set q2 : ℝ := ((lats2.getD r 0 : ℚ) : ℝ)
  have hpi : 0 < Real.pi := Real.pi_pos
  have habs : ∀ q : ℝ, Real.cos (q * Real.pi / 180) =
      Real.cos (|q| * Real.pi / 180) := by
    intro q
    rcases abs_choice q with h | h
    · rw [h]
    · rw [h]
      ring_nf
      rw [← Real.cos_neg (q * Real.pi * (1 / 180))]
      ring_nf
  have hc1 : 0 < Real.cos (q1 * Real.pi / 180) := cos_deg_pos h1lt
  have hc2 : 0 < Real.cos (q2 * Real.pi / 180) := cos_deg_pos h2R
  have hle : Real.cos (q2 * Real.pi / 180) ≤ Real.cos (q1 * Real.pi / 180) := by
    rw [habs q1, habs q2]
    apply Real.cos_le_cos_of_nonneg_of_le_pi
    · positivity
    · nlinarith [mul_pos (by linarith [abs_nonneg q2] : (0:ℝ) < 180 - |q2|) hpi]
    · have := abs_nonneg q1
      nlinarith
  constructor
  · unfold zFactor
    simp only [if_true]
    exact div_pos one_pos hc1
  · unfold zFactor
    simp only [if_true]
    exact one_div_le_one_div_of_le hc2 hle

theorem slopeVal_mono (z1 z2 : ℝ) (gx gy : ℚ) (h0 : 0 ≤ z1) (h12 : z1 ≤ z2) :
    slopeVal z1 gx gy ≤ slopeVal z2 gx gy := by
  unfold slopeVal
  have hsq : z1 ^ 2 ≤ z2 ^ 2 := by nlinarith
  have harg : (z1 * (gx : ℝ)) ^ 2 + (z1 * (gy : ℝ)) ^ 2 ≤
      (z2 * (gx : ℝ)) ^ 2 + (z2 * (gy : ℝ)) ^ 2 := by
    nlinarith [sq_nonneg ((gx : ℝ)), sq_nonneg ((gy : ℝ))]
  have hs := Real.sqrt_le_sqrt harg
  have ha := Real.arctan_strictMono.monotone hs
  have hm := mul_le_mul_of_nonneg_right ha (by norm_num : (0 : ℝ) ≤ 180)
  exact (div_le_div_iff_of_pos_right Real.pi_pos).mpr hm

theorem obsCount_nonneg (g : Grid) (f : ℕ → ℕ → Option ℝ) : 0 ≤ obsCount g f := by
  unfold obsCount
  apply Finset.sum_nonneg
  intro r _
  apply Finset.sum_nonneg
  intro c _
  split <;> norm_num

theorem seg_mem_bounds : ∀ (L : List ℕ) (r : ℕ), r < L.sum →
    segStart L r ≤ r ∧ r < segStart L r + segLen L r ∧
      segStart L r + segLen L r ≤ L.sum := by
  intro L
  induction L with
  | nil => intro r hr; simp at hr
  | cons s rest ih =>
    intro r hr
    simp only [List.sum_cons] at hr
    by_cases hcase : r < s
    · simp only [segStart, segLen, if_pos hcase, List.sum_cons]
      omega
    · simp only [segStart, segLen, if_neg hcase, List.sum_cons]
      have := ih (r - s) (by omega)
      omega

theorem clamp_halo (H rs rl r : ℕ) (dr : ℤ)
    (h1 : rs ≤ r) (h2 : r < rs + rl) (h3 : rs + rl ≤ H)
    (h4 : -1 ≤ dr) (h5 : dr ≤ 1) :
    (rs - 1) + clampIdx (min (rs + rl + 1) H - (rs - 1))
        ((↑(r - (rs - 1)) : ℤ) + dr) = clampIdx H ((r : ℤ) + dr) := by
  unfold clampIdx
  omega

theorem cellOff_subExt (g : Grid) (rs rl cs cl r c : ℕ) (dr dc : ℤ)
    (hr1 : rs ≤ r) (hr2 : r < rs + rl) (hr3 : rs + rl ≤ g.h)
    (hc1 : cs ≤ c) (hc2 : c < cs + cl) (hc3 : cs + cl ≤ g.w)
    (hdr : dr.natAbs ≤ 1) (hdc : dc.natAbs ≤ 1) :
    cellOff (subExt g rs rl cs cl) (r - (rs - 1)) (c - (cs - 1)) dr dc =
      cellOff g r c dr dc := by
  unfold cellOff subExt
  simp only
  rw [clamp_halo g.h rs rl r dr hr1 hr2 hr3 (by omega) (by omega),
    clamp_halo g.w cs cl c dc hc1 hc2 hc3 (by omega) (by omega)]

theorem get9_subExt (g : Grid) (rs rl cs cl r c : ℕ)
    (hr1 : rs ≤ r) (hr2 : r < rs + rl) (hr3 : rs + rl ≤ g.h)
    (hc1 : cs ≤ c) (hc2 : c < cs + cl) (hc3 : cs + cl ≤ g.w) :
    get9 (subExt g rs rl cs cl) (r - (rs - 1)) (c - (cs - 1)) =
      get9 g r c := by
  have key : ∀ dr dc : ℤ, dr.natAbs ≤ 1 → dc.natAbs ≤ 1 →
      cellOff (subExt g rs rl cs cl) (r - (rs - 1)) (c - (cs - 1)) dr dc =
        cellOff g r c dr dc := fun dr dc hdr hdc =>
    cellOff_subExt g rs rl cs cl r c dr dc hr1 hr2 hr3 hc1 hc2 hc3 hdr hdc
  unfold get9
  rw [key (-1) (-1) (by decide) (by decide), key (-1) 0 (by decide) (by decide),
    key (-1) 1 (by decide) (by decide), key 0 (-1) (by decide) (by decide),
    key 0 0 (by decide) (by decide), key 0 1 (by decide) (by decide),
    key 1 (-1) (by decide) (by decide), key 1 0 (by decide) (by decide),
    key 1 1 (by decide) (by decide)]

theorem gradAt_subExt (g : Grid) (rs rl cs cl r c : ℕ) (dx dy : ℚ)
    (hr1 : rs ≤ r) (hr2 : r < rs + rl) (hr3 : rs + rl ≤ g.h)
    (hc1 : cs ≤ c) (hc2 : c < cs + cl) (hc3 : cs + cl ≤ g.w) :
    gradAt (subExt g rs rl cs cl) dx dy (r - (rs - 1)) (c - (cs - 1)) =
      gradAt g dx dy r c := by
  unfold gradAt
  rw [get9_subExt g rs rl cs cl r c hr1 hr2 hr3 hc1 hc2 hc3]

/-! ## Claims -/

/-- Claim C1: partition consistency — for every grid, every row/column
chunking that tiles it exactly, and every cell, the slope computed on the
one-cell-halo-extended block owning that cell (then read back at the cell's
local position) equals the slope of the whole unpartitioned grid at that
cell, exactly (hence within 1e-6, with no seams at partition boundaries). -/
theorem chunk_seams (g : Grid) (rowSplits colSplits : List ℕ) (dx dy : ℚ)
    (z : ℕ → ℝ) (r c : ℕ)
    (hrs : rowSplits.sum = g.h) (hcs : colSplits.sum = g.w)
    (hr : r < g.h) (hc : c < g.w) :
    chunkedSlopeAt g rowSplits colSplits dx dy z r c =
      slopeAt g dx dy z r c := by
  obtain ⟨hr1, hr2, hr3⟩ := seg_mem_bounds rowSplits r (by omega)
  obtain ⟨hc1, hc2, hc3⟩ := seg_mem_bounds colSplits c (by omega)
  rw [hrs] at hr3
  rw [hcs] at hc3
  simp only [chunkedSlopeAt, slopeAt]
  rw [gradAt_subExt g (segStart rowSplits r) (segLen rowSplits r)
    (segStart colSplits c) (segLen colSplits c) r c dx dy hr1 hr2 hr3 hc1 hc2
    hc3]
  have hz : segStart rowSplits r - 1 + (r - (segStart rowSplits r - 1)) = r := by
    omega
  rw [hz]

/-- Witness for C1 at a concrete 3×3 ramp grid chunked as rows `[2,1]` and
columns `[1,2]`, probed at the interior cell `(1,1)` sitting on both chunk
boundaries. -/
theorem chunk_seams_witness :
    (([2, 1] : List ℕ).sum = rampGrid.h ∧ ([1, 2] : List ℕ).sum = rampGrid.w ∧
      1 < rampGrid.h ∧ 1 < rampGrid.w) ∧
      chunkedSlopeAt rampGrid [2, 1] [1, 2] 1 1 (fun _ => 1) 1 1 =
        slopeAt rampGrid 1 1 (fun _ => 1) 1 1 :=
  ⟨⟨rfl, rfl, by decide, by decide⟩,
   chunk_seams rampGrid [2, 1] [1, 2] 1 1 (fun _ => 1) 1 1 rfl rfl
     (by decide) (by decide)⟩

/-- Claim C2: for every grid, spacing, vertical scale and mode, an output
cell whose 3×3 neighborhood touches a missing sample is itself missing, and
an all-missing input yields an all-missing output. -/
theorem terrain_nan_propagation (g : Grid) (dx dy : ℚ) (z : ℕ → ℝ)
    (mode : TerrainMode) (r c : ℕ) :
    (nbhdHasNone g r c → terrainAt g dx dy z mode r c = none) ∧
    ((∀ i j, g.data i j = none) → terrainAt g dx dy z mode r c = none) := by
  have key : nbhdHasNone g r c → terrainAt g dx dy z mode r c = none := by
    intro h
    have h9 := get9_eq_none_of_hasNone h
    cases mode <;>
      simp [terrainAt, slopeAt, aspectAt, hillshadeAt, gradAt, h9]
  refine ⟨key, fun hall => key ⟨0, 0, by decide, by decide, hall _ _⟩⟩

/-- Witness for C2 at a concrete grid with one missing corner sample. -/
theorem terrain_nan_propagation_witness :
    nbhdHasNone gNaN 1 1 ∧
      terrainAt gNaN 1 1 (fun _ => 1) .slope 1 1 = none :=
  ⟨⟨-1, -1, by decide, by decide, by decide⟩,
   (terrain_nan_propagation gNaN 1 1 (fun _ => 1) .slope 1 1).1
     ⟨-1, -1, by decide, by decide, by decide⟩⟩

/-- Claim C7: hillshade is invariant under uniform elevation translation —
for every grid, constant offset, spacing, vertical scale and sun position,
the hillshade of the translated field equals the hillshade of the original
field, cell for cell (exactly, hence within 1e-5). -/
theorem hillshade_translation_invariance (g : Grid) (k dx dy : ℚ) (z : ℕ → ℝ)
    (az alt : ℚ) (r c : ℕ) :
    hillshadeAt (gridAdd g k) dx dy z az alt r c =
      hillshadeAt g dx dy z az alt r c := by
  unfold hillshadeAt
  rw [gradAt_gridAdd]

/-- Claim C5: the antimeridian rule — for a geographic column axis any
adjacent coordinate pair whose raw difference exceeds 180° gets effective
spacing `360 − |raw|`; on the concrete dateline-crossing coordinate vector
all pair spacings collapse to 1, and the slope of the dateline step grid is
defined (not NaN, hence finite) at every cell of the antimeridian-adjacent
columns. -/
theorem dateline_jump (a b : ℚ) :
    (180 < |b - a| → effSpacing true a b = 360 - |b - a|) ∧
    pairSpacings true datelineXs = [1, 1, 1, 1] ∧
    (∀ r, r < 5 →
      (demSlope true none none datelineXs coords04 datelineGrid r 2).isSome ∧
      (demSlope true none none datelineXs coords04 datelineGrid r 3).isSome) := by
  refine ⟨?_, ?_, ?_⟩
  · intro hd
    simp [effSpacing, hd]
  · norm_num [pairSpacings, datelineXs, effSpacing]
  · intro r hr
    constructor <;>
      · simp only [demSlope, slopeAt, Option.isSome_map']
        interval_cases r <;> decide

/-- Witness for C5: the pair `(180, -179)` has raw difference 359 and
effective spacing 1, and the slope at the cell the test probes is defined. -/
theorem dateline_jump_witness :
    effSpacing true 180 (-179) = 360 - |(-179 : ℚ) - 180| ∧
      (demSlope true none none datelineXs coords04 datelineGrid 2 2).isSome :=
  ⟨(dateline_jump 180 (-179)).1 (by norm_num),
   ((dateline_jump 180 (-179)).2.2 2 (by norm_num)).1⟩

/-- Claim C8: on the 5×5 pyramid with unit spacing, slope is strictly
positive at the cell the test probes next to the peak, aspect directly
above the peak (row 1, the south-facing cell) is exactly 180, and aspect
directly below the peak (row 3, the north-facing cell) is exactly 0. -/
theorem pyramid_math :
    0 < (demSlope true (some 1) none coords04 coords04 pyramidGrid 2 3).getD 0 ∧
    demAspect true (some 1) none coords04 coords04 pyramidGrid 1 2 = some 180 ∧
    demAspect true (some 1) none coords04 coords04 pyramidGrid 3 2 = some 0 := by
  have hg23 : gradAt pyramidGrid 1 1 2 3 = some (-(3 / 4), 0) := by
    simp only [gradAt, get9, cellOff, pyramidGrid, pyramidRows]
    norm_num [clampIdx, List.getD, hornX, hornY, show Int.toNat 0 = 0 from rfl, show Int.toNat 1 = 1 from rfl, show Int.toNat 2 = 2 from rfl, show Int.toNat 3 = 3 from rfl, show Int.toNat 4 = 4 from rfl]
  have hg12 : gradAt pyramidGrid 1 1 1 2 = some (0, 3 / 4) := by
    simp only [gradAt, get9, cellOff, pyramidGrid, pyramidRows]
    norm_num [clampIdx, List.getD, hornX, hornY, show Int.toNat 0 = 0 from rfl, show Int.toNat 1 = 1 from rfl, show Int.toNat 2 = 2 from rfl, show Int.toNat 3 = 3 from rfl, show Int.toNat 4 = 4 from rfl]
  have hg32 : gradAt pyramidGrid 1 1 3 2 = some (0, -(3 / 4)) := by
    simp only [gradAt, get9, cellOff, pyramidGrid, pyramidRows]
    norm_num [clampIdx, List.getD, hornX, hornY, show Int.toNat 0 = 0 from rfl, show Int.toNat 1 = 1 from rfl, show Int.toNat 2 = 2 from rfl, show Int.toNat 3 = 3 from rfl, show Int.toNat 4 = 4 from rfl]
  have hz : ∀ r, r < 5 → 0 < zFactor true none coords04 r := by
    intro r hr
    apply zFactor_geo_pos
    interval_cases r <;> decide
  refine ⟨?_, ?_, ?_⟩
  · simp only [demSlope, resolveRes, slopeAt, hg23, Option.map_some',
      Option.getD_some]
    exact slopeVal_pos _ _ _ (hz 2 (by norm_num)) (by norm_num)
  · simp only [demAspect, resolveRes, aspectAt, hg12, Option.map_some',
      Option.some.injEq]
    exact aspectVal_south _ _ (hz 1 (by norm_num)) (by norm_num)
  · simp only [demAspect, resolveRes, aspectAt, hg32, Option.map_some',
      Option.some.injEq]
    exact aspectVal_north _ _ (hz 3 (by norm_num)) (by norm_num)

/-- Claim C6: latitude-scaling monotonicity — for a geographic CRS, the
mean slope magnitude of an elevation field whose rows sit at latitudes of
larger absolute value (nearer a pole, below 90°) is at least the mean slope
magnitude of the identical field at latitudes of smaller absolute value. -/
theorem latitude_scaling_monotone (g : Grid) (dx dy : ℚ) (latE latP : List ℚ)
    (h : ∀ r, r < g.h →
      |latE.getD r 0| ≤ |latP.getD r 0| ∧ |latP.getD r 0| < 90) :
    meanSlopeAtLats g dx dy latE ≤ meanSlopeAtLats g dx dy latP := by
  unfold meanSlopeAtLats nanmean
  have hcount : obsCount g (slopeAt g dx dy (zFactor true none latE)) =
      obsCount g (slopeAt g dx dy (zFactor true none latP)) := by
    unfold obsCount
    refine Finset.sum_congr rfl (fun r _ => Finset.sum_congr rfl (fun c _ => ?_))
    simp [slopeAt, Option.isSome_map']
  have hsum : nansum g (slopeAt g dx dy (zFactor true none latE)) ≤
      nansum g (slopeAt g dx dy (zFactor true none latP)) := by
    unfold nansum
    refine Finset.sum_le_sum (fun r hr => Finset.sum_le_sum (fun c _ => ?_))
    rcases hg : gradAt g dx dy r c with _ | p
    · simp [slopeAt, hg]
    · obtain ⟨hz1, hz12⟩ :=
        zFactor_mono latE latP r (h r (Finset.mem_range.mp hr)).1
          (h r (Finset.mem_range.mp hr)).2
      simp only [slopeAt, hg, Option.map_some', Option.getD_some]
      exact slopeVal_mono _ _ _ _ hz1.le hz12
  rw [hcount]
  rcases eq_or_lt_of_le
      (obsCount_nonneg g (slopeAt g dx dy (zFactor true none latP))) with
    h0 | hpos
  · rw [← h0]
    simp
  · exact (div_le_div_iff_of_pos_right hpos).mpr hsum

/-- Witness for C6 at the concrete ramp grid, latitudes 0 (equator) against
80 (near pole). -/
theorem latitude_scaling_monotone_witness :
    (∀ r, r < rampGrid.h →
      |([0, 0, 0] : List ℚ).getD r 0| ≤ |([80, 80, 80] : List ℚ).getD r 0| ∧
        |([80, 80, 80] : List ℚ).getD r 0| < 90) ∧
      meanSlopeAtLats rampGrid 1 1 [0, 0, 0] ≤
        meanSlopeAtLats rampGrid 1 1 [80, 80, 80] :=
  ⟨by
      intro r hr
      rw [show rampGrid.h = 3 from rfl] at hr
      interval_cases r <;> exact ⟨by norm_num [List.getD], by norm_num [List.getD]⟩,
   latitude_scaling_monotone rampGrid 1 1 [0, 0, 0] [80, 80, 80] (by
      intro r hr
      rw [show rampGrid.h = 3 from rfl] at hr
      interval_cases r <;> exact ⟨by norm_num [List.getD], by norm_num [List.getD]⟩)⟩

/-- Claim C3: when the CRS lookup returns none, each of the slope, aspect
and hillshade accessors surfaces the missing-CRS error — no output field is
produced and no default CRS is substituted. -/
theorem missing_crs_errors (da : DataArr) (x y : Option String)
    (res zOv az alt : Option ℚ) (h : da.projCrs = none) :
    da_slope da x y res zOv = .error noCrsMsg ∧
    da_aspect da x y res zOv = .error noCrsMsg ∧
    da_hillshade da x y res zOv az alt = .error noCrsMsg := by
  refine ⟨?_, ?_, ?_⟩ <;>
    simp [da_slope, da_aspect, da_hillshade, daCrs, h, Except.map]

/-- Witness for C3 at a concrete data array with no CRS. -/
theorem missing_crs_errors_witness :
    daNoCrs.projCrs = none ∧
      da_slope daNoCrs none none none none = .error noCrsMsg :=
  ⟨rfl, (missing_crs_errors daNoCrs none none none none none none rfl).1⟩

/-- Claim C4: dataset-level variable discovery — a unique case-insensitive
exact match against the candidate-name list is returned; more than one such
match is a hard error; with no name match the unique variable with at least
two dimensions is returned, more than one is a hard error, and none at all
is a hard error. -/
theorem variable_discovery_spec (ds : Dataset) :
    (∀ p, ds.vars.filter (fun q => is_match q.1 commonNames) = [p] →
       dsCall ds none = .ok p.2) ∧
    (2 ≤ (ds.vars.filter (fun q => is_match q.1 commonNames)).length →
       dsCall ds none = .error .multipleVars) ∧
    (ds.vars.filter (fun q => is_match q.1 commonNames) = [] →
       (∀ p, ds.vars.filter (fun q => 2 ≤ q.2.dims.length) = [p] →
          dsCall ds none = .ok p.2) ∧
       (2 ≤ (ds.vars.filter (fun q => 2 ≤ q.2.dims.length)).length →
          dsCall ds none = .error .multipleVars) ∧
       (ds.vars.filter (fun q => 2 ≤ q.2.dims.length) = [] →
          dsCall ds none = .error .noVar)) := by
  refine ⟨?_, ?_, fun h0 => ⟨?_, ?_, ?_⟩⟩
  · intro p hp
    simp only [dsCall, nameTruthy, Bool.false_eq_true, if_false, hp]
  · intro hlen
    rcases hf : ds.vars.filter (fun q => is_match q.1 commonNames) with
      _ | ⟨a, _ | ⟨b, l⟩⟩
    · rw [hf] at hlen; simp at hlen
    · rw [hf] at hlen; simp at hlen
    · simp only [dsCall, nameTruthy, Bool.false_eq_true, if_false, hf]
  · intro p hp
    simp only [dsCall, nameTruthy, Bool.false_eq_true, if_false, h0, hp]
  · intro hlen
    rcases hf : ds.vars.filter (fun q => 2 ≤ q.2.dims.length) with
      _ | ⟨a, _ | ⟨b, l⟩⟩
    · rw [hf] at hlen; simp at hlen
    · rw [hf] at hlen; simp at hlen
    · simp only [dsCall, nameTruthy, Bool.false_eq_true, if_false, h0, hf]
  · intro hsp
    simp only [dsCall, nameTruthy, Bool.false_eq_true, if_false, h0, hsp]

/-- Witness for C4 at a concrete two-variable dataset where exactly one
variable name matches the candidate list. -/
theorem variable_discovery_spec_witness :
    dsSample.vars.filter (fun q => is_match q.1 commonNames) =
        [(.str "elevation", varXY)] ∧
      dsCall dsSample none = .ok varXY :=
  ⟨by rfl, (variable_discovery_spec dsSample).1 (.str "elevation", varXY) (by rfl)⟩

/-- Counterexample to C9 as stated: the explicit override `x = ""` does not
take precedence — discovery returns the matched dimension name `"lon"`
instead of the supplied empty string (Python `or` treats `""` as absent). -/
theorem dimension_override_cex :
    (discover_dims [.str "lon", .str "lat"] (some "") none).1 ≠ "" := by
  decide

/-- Claim C9 (amended): axis discovery resolves the column axis as the first
dimension matching `x`/`lon`/`longitude`/`long` (default `"x"`), the row
axis as the first dimension matching `y`/`lat`/`latitude` (default `"y"`);
a non-empty explicit override always takes precedence (an empty-string
override falls back to discovery), and the slope accessor hands exactly the
discovered names to the terrain engine. -/
theorem dimension_discovery_spec :
    (∀ dims y s, s ≠ "" → (discover_dims dims (some s) y).1 = s) ∧
    (∀ dims x s, s ≠ "" → (discover_dims dims x (some s)).2 = s) ∧
    (∀ dims y, (∀ d ∈ dims, is_match d xOptions = false) →
       (discover_dims dims none y).1 = "x") ∧
    (∀ dims x, (∀ d ∈ dims, is_match d yOptions = false) →
       (discover_dims dims x none).2 = "y") ∧
    (∀ pre d post y, (∀ p ∈ pre, is_match p xOptions = false) →
       is_match d xOptions = true →
       (discover_dims (pre ++ d :: post) none y).1 = nameStr d) ∧
    (∀ pre d post x, (∀ p ∈ pre, is_match p yOptions = false) →
       is_match d yOptions = true →
       (discover_dims (pre ++ d :: post) x none).2 = nameStr d) ∧
    (∀ da x y res zOv out, da_slope da x y res zOv = .ok out →
       out.1 = (discover_dims da.dims x y).1 ∧
       out.2.1 = (discover_dims da.dims x y).2) := by
  refine ⟨?_, ?_, ?_, ?_, ?_, ?_, ?_⟩
  · intro dims y s hs
    simp [discover_dims, pyOr, hs]
  · intro dims x s hs
    simp [discover_dims, pyOr, hs]
  · intro dims y hno
    have : dims.find? (fun d => is_match d xOptions) = none :=
      List.find?_eq_none.mpr (fun d hd => by simp [hno d hd])
    simp [discover_dims, pyOr, this]
  · intro dims x hno
    have : dims.find? (fun d => is_match d yOptions) = none :=
      List.find?_eq_none.mpr (fun d hd => by simp [hno d hd])
    simp [discover_dims, pyOr, this]
  · intro pre d post y hpre hd
    have hfind : (pre ++ d :: post).find? (fun p => is_match p xOptions) =
        some d := by
      rw [List.find?_append]
      have h1 : pre.find? (fun p => is_match p xOptions) = none :=
        List.find?_eq_none.mpr (fun p hp => by simp [hpre p hp])
      rw [h1, Option.none_or]
      simp [List.find?_cons, hd]
    simp [discover_dims, pyOr, hfind]
  · intro pre d post x hpre hd
    have hfind : (pre ++ d :: post).find? (fun p => is_match p yOptions) =
        some d := by
      rw [List.find?_append]
      have h1 : pre.find? (fun p => is_match p yOptions) = none :=
        List.find?_eq_none.mpr (fun p hp => by simp [hpre p hp])
      rw [h1, Option.none_or]
      simp [List.find?_cons, hd]
    simp [discover_dims, pyOr, hfind]
  · intro da x y res zOv out hout
    cases hcrs : da.projCrs with
    | none => simp [da_slope, daCrs, hcrs, Except.map] at hout
    | some crs =>
      simp only [da_slope, daCrs, hcrs, Except.map] at hout
      cases hout
      exact ⟨rfl, rfl⟩

/-- Witness for C9 (amended) at concrete inputs: a non-empty override wins;
with no override the first matching dimension name is discovered. -/
theorem dimension_discovery_spec_witness :
    (discover_dims [.str "time", .str "lon", .str "lat"] (some "east")
        none).1 = "east" ∧
      (discover_dims ([.str "time"] ++ .str "lon" :: [.str "lat"]) none
        none).1 = nameStr (.str "lon") :=
  ⟨dimension_discovery_spec.1 [.str "time", .str "lon", .str "lat"] none
     "east" (by decide),
   dimension_discovery_spec.2.2.2.2.1 [.str "time"] (.str "lon")
     [.str "lat"] none (by decide) (by decide)⟩

/-- Claim C10: the hillshade accessor defaults to azimuth 315 and altitude
45 when the sun position is not supplied; the dataset-level hillshade
delegates to the data-array accessor of the discovered variable (inheriting
those defaults); and name matching never matches a non-string name. -/
theorem hillshade_defaults :
    (∀ da x y res zOv,
       da_hillshade da x y res zOv none none =
         da_hillshade da x y res zOv (some 315) (some 45)) ∧
    (∀ ds x y res zOv az alt,
       ds_hillshade ds x y res zOv az alt =
         (dsCall ds none).map (fun da => da_hillshade da x y res zOv az alt)) ∧
    (∀ n opts, is_match (.other n) opts = false) :=
  ⟨fun _ _ _ _ _ => rfl, fun _ _ _ _ _ _ _ => rfl, fun _ _ => rfl⟩

end Corduroy
